import Mathlib

/-!
# Verification of the image-enhancer pipeline

A shallow embedding of `src/main.py`: a batch photo enhancer that scales
saturation and contrast, overlays a radial vignette, and writes results
alongside the originals, with an optional interactive per-image mode.

Modelling conventions:

* Python strings are lists of Unicode code points (`PyStr := List ℕ`).
* Python floats are rationals (`ℚ`); machine pixel bytes are naturals with
  explicit clamping to `[0, 255]`.
* The imaging library (PIL) is an external collaborator.  Its pixel-exact
  primitives that the claims depend on (`Image.blend` used by
  `ImageEnhance.Color` / `ImageEnhance.Contrast`, `convert("L")` grayscale)
  are modelled concretely from their documented semantics; the remaining
  primitives (ellipse rasterization, Gaussian blur, compositing, file
  decode/encode) are a capability interface `Lib` carrying only their
  documented size/mode guarantees, so every theorem quantifies over any
  conforming imaging library.
* Console input is a list of lines; the filesystem over time is a stream of
  decode results.  Uncaught Python exceptions are explicit
  (`Except`, or a `crashed` machine state).
-/

/-! ## Python strings as code-point lists -/

/-- A Python string, modelled as its list of Unicode code points. -/
abbrev PyStr := List Nat

/-- Embed a Lean string literal as a `PyStr`. -/
def pystr (s : String) : PyStr := s.data.map Char.toNat

/-- ASCII whitespace test, modelling the characters `str.strip` removes. -/
def isSpaceCode (c : Nat) : Bool :=
  c = 32 || c = 9 || c = 10 || c = 13 || c = 11 || c = 12

/-- Model of Python `str.strip()`: drop whitespace from both ends. -/
def pyStrip (s : PyStr) : PyStr :=
  ((s.dropWhile isSpaceCode).reverse.dropWhile isSpaceCode).reverse

/-- Lower-case one code point (ASCII range, as the filenames and console
answers the claims mention are ASCII). -/
def lowerCode (c : Nat) : Nat :=
  if 65 ≤ c ∧ c ≤ 90 then c + 32 else c

/-- Model of Python `str.lower()`. -/
def pyLower (s : PyStr) : PyStr := s.map lowerCode

/-- `SUPPORTED_FORMATS = ('.png', '.jpeg', '.jpg', '.bmp')` (src/main.py line 4). -/
def SUPPORTED_FORMATS : List PyStr :=
  [pystr ".png", pystr ".jpeg", pystr ".jpg", pystr ".bmp"]

/-- `filename.lower().endswith(SUPPORTED_FORMATS)` (src/main.py lines 96/115):
Python `endswith` with a tuple succeeds if any member is a suffix. -/
def isSupported (filename : PyStr) : Bool :=
  SUPPORTED_FORMATS.any (fun e => e.isSuffixOf (pyLower filename))

/-- The claim's wording of the filter: the lowercased name ends with one of
`.png`, `.jpeg`, `.jpg`, `.bmp`, written as an explicit disjunction. -/
def isSupportedSpec (filename : PyStr) : Prop :=
  pystr ".png" <:+ pyLower filename ∨ pystr ".jpeg" <:+ pyLower filename ∨
  pystr ".jpg" <:+ pyLower filename ∨ pystr ".bmp" <:+ pyLower filename

instance (f : PyStr) : Decidable (isSupportedSpec f) := by
  unfold isSupportedSpec; infer_instance

/-- Decompose a list around its LAST dot (code point 46):
`breakAtLastDot s = some (p, q)` iff `s = p ++ '.' :: q` with no dot in `q`. -/
def breakAtLastDot : PyStr → Option (PyStr × PyStr)
  | [] => none
  | c :: rest =>
    match breakAtLastDot rest with
    | some (p, q) => some (c :: p, q)
    | none => if c = 46 then some ([], rest) else none

/-- Model of Python `os.path.splitext` on a bare filename: split at the last
dot, except that a name whose characters before that dot are all dots (such
as `".png"`) is not split and gets an empty extension. -/
def splitext (s : PyStr) : PyStr × PyStr :=
  match breakAtLastDot s with
  | none => (s, [])
  | some (p, q) => if p.all (fun c => c = 46) then (s, []) else (p, 46 :: q)

/-- `f"{name}_enhanced{ext}"` (src/main.py lines 100-101 and 134-135). -/
def outputName (filename : PyStr) : PyStr :=
  (splitext filename).1 ++ pystr "_enhanced" ++ (splitext filename).2

/-! ## Python float parsing (model of the built-in `float`) -/

/-- Is `c` an ASCII digit code point? -/
def isDigitCode (c : Nat) : Bool := 48 ≤ c && c ≤ 57

/-- Numeric value of a digit string (most significant first). -/
def digitsVal (l : PyStr) : Nat := l.foldl (fun a c => a * 10 + (c - 48)) 0

/-- Split a list at its FIRST dot. -/
def breakAtFirstDot : PyStr → Option (PyStr × PyStr)
  | [] => none
  | c :: rest =>
    if c = 46 then some ([], rest)
    else (breakAtFirstDot rest).map (fun pq => (c :: pq.1, pq.2))

/-- Model of Python's built-in `float(string)` for the decimal literals the
program's prompts expect: optional surrounding whitespace, optional sign,
digits with at most one decimal point, at least one digit.  (Exponents,
`inf`/`nan` and underscores are outside the model; claims only distinguish
parseable from unparseable input.)  Returns `none` where `float` raises
`ValueError`. -/
def floatOfStr (s : PyStr) : Option ℚ :=
  let t := pyStrip s
  let sgn : ℚ × PyStr :=
    match t with
    | 43 :: r => (1, r)
    | 45 :: r => (-1, r)
    | r => (1, r)
  match breakAtFirstDot sgn.2 with
  | none =>
    if sgn.2 ≠ [] ∧ sgn.2.all (fun c => isDigitCode c) then
      some (sgn.1 * digitsVal sgn.2)
    else none
  | some (a, b) =>
    if (a ≠ [] ∨ b ≠ []) ∧ a.all (fun c => isDigitCode c) ∧
        b.all (fun c => isDigitCode c) ∧ ¬ 46 ∈ b then
      some (sgn.1 * ((digitsVal a : ℚ) + (digitsVal b : ℚ) / (10 : ℚ) ^ b.length))
    else none

/-- Model of Python `int()` applied to a real value: truncation toward zero. -/
def pyTrunc (q : ℚ) : ℤ := if 0 ≤ q then ⌊q⌋ else ⌈q⌉

/-! ## Images and the enhancement core -/

/-- One RGB pixel; channels are byte values (the representation invariant
`≤ 255` is `Img.Valid` below). -/
structure RGBPx where
  r : Nat
  g : Nat
  b : Nat
deriving DecidableEq, Repr

/-- A decoded in-memory image: dimensions, color mode (e.g. `"RGB"`), and
row-major pixel data. -/
structure Img where
  width : Nat
  height : Nat
  mode : PyStr
  px : List RGBPx
deriving DecidableEq, Repr

/-- Every channel of every pixel is a byte. -/
def Img.Valid (img : Img) : Prop :=
  ∀ p ∈ img.px, p.r ≤ 255 ∧ p.g ≤ 255 ∧ p.b ≤ 255

instance (img : Img) : Decidable img.Valid := by
  unfold Img.Valid; infer_instance

/-- Model of PIL's RGB→L grayscale conversion
(`L = (R*19595 + G*38470 + B*7471 + 2^15) >> 16`, the ITU-R 601-2 luma). -/
def l24 (p : RGBPx) : Nat :=
  (p.r * 19595 + p.g * 38470 + p.b * 7471 + 32768) / 65536

/-- The grayscale twin of a pixel. -/
def grayPx (p : RGBPx) : RGBPx := ⟨l24 p, l24 p, l24 p⟩

/-- Clamp an integer into the byte range. -/
def clampByte (z : ℤ) : Nat := (min 255 (max 0 z)).toNat

/-- Model of PIL `Image.blend` on one channel: `a + factor * (b - a)`,
computed exactly and stored as a clamped byte. -/
def blendByte (a b : Nat) (factor : ℚ) : Nat :=
  clampByte ⌊(a : ℚ) + factor * ((b : ℚ) - (a : ℚ))⌋

/-- Channel-wise blend of two pixels. -/
def blendPx (a b : RGBPx) (factor : ℚ) : RGBPx :=
  ⟨blendByte a.r b.r factor, blendByte a.g b.g factor, blendByte a.b b.b factor⟩

/-- Model of `ImageEnhance.Color(image).enhance(factor)`: blend each pixel
between its grayscale equivalent and its original color. -/
def colorEnhance (img : Img) (factor : ℚ) : Img :=
  { img with px := img.px.map (fun p => blendPx (grayPx p) p factor) }

/-- Mean gray level of an image, as PIL's `ImageStat` computes it. -/
def meanGray (img : Img) : ℚ :=
  ((img.px.map (fun p => (l24 p : ℚ))).sum) / (img.px.length : ℚ)

/-- Model of `ImageEnhance.Contrast`'s degenerate gray level:
`int(mean + 0.5)`. -/
def contrastMeanByte (img : Img) : Nat := (⌊meanGray img + 1/2⌋).toNat

/-- Model of `ImageEnhance.Contrast(image).enhance(factor)`: blend each pixel
between the image's mean gray level and its current value. -/
def contrastEnhance (img : Img) (factor : ℚ) : Img :=
  { img with
    px := img.px.map (fun p =>
      blendPx ⟨contrastMeanByte img, contrastMeanByte img, contrastMeanByte img⟩ p factor) }

/-- `enhance_image` (src/main.py lines 6-24): saturation scaling followed by
contrast scaling. -/
def enhance_image (image : Img) (saturation_factor contrast_factor : ℚ) : Img :=
  contrastEnhance (colorEnhance image saturation_factor) contrast_factor

/-! ## The vignette compositor and the imaging capability interface -/

/-- A single-channel (grayscale) mask bitmap. -/
structure Mask where
  width : Nat
  height : Nat
  px : List Nat
deriving DecidableEq, Repr

/-- `Image.new('L', (width, height), fill)` (src/main.py line 38). -/
def newMask (width height fill : Nat) : Mask :=
  ⟨width, height, List.replicate (width * height) fill⟩

/-- `Image.new('RGB', size, color)` (src/main.py line 45). -/
def newRGB (width height : Nat) (color : RGBPx) : Img :=
  ⟨width, height, pystr "RGB", List.replicate (width * height) color⟩

/-- A filesystem path: the directory joined with a filename
(`os.path.join(directory, filename)`). -/
structure FsPath where
  dir : PyStr
  file : PyStr
deriving DecidableEq, Repr

/-- The imaging capability interface (spec §6): the PIL primitives the
repository delegates to, together with their documented size/mode
guarantees.  `decode` models `Image.open`, returning `none` where PIL would
raise; `saveOk` models `Image.save`, `false` where it would raise;
`drawEllipse` models `ImageDraw.Draw(...).ellipse(bbox, fill)`;
`gaussianBlur` models `ImageFilter.GaussianBlur` (its argument is the
standard deviation); `composite` models `Image.composite(im1, im2, mask)`,
whose result has `im2`'s size and mode. -/
structure Lib where
  decode : FsPath → Option Img
  saveOk : FsPath → Img → Bool
  drawEllipse : Mask → ℚ × ℚ × ℚ × ℚ → Nat → Mask
  gaussianBlur : Mask → ℚ → Mask
  composite : Img → Img → Mask → Img
  drawEllipse_width : ∀ m b v, (drawEllipse m b v).width = m.width
  drawEllipse_height : ∀ m b v, (drawEllipse m b v).height = m.height
  gaussianBlur_width : ∀ m s, (gaussianBlur m s).width = m.width
  gaussianBlur_height : ∀ m s, (gaussianBlur m s).height = m.height
  composite_width : ∀ i1 i2 m, (composite i1 i2 m).width = i2.width
  composite_height : ∀ i1 i2 m, (composite i1 i2 m).height = i2.height
  composite_mode : ∀ i1 i2 m, (composite i1 i2 m).mode = i2.mode

/-- `radius = int(min(width, height) * vignette_intensity)`
(src/main.py line 41): Python `int()` truncates toward zero. -/
def vignetteRadius (image : Img) (vignette_intensity : ℚ) : ℤ :=
  pyTrunc ((min image.width image.height : ℕ) * vignette_intensity)

/-- The mask built inside `add_vignette` (src/main.py lines 38-44): a mask
initialized to 0, with a filled ellipse of value 255 over the bounding box
`(w/2 - r, h/2 - r, w/2 + r, h/2 + r)`, then Gaussian-blurred with standard
deviation `radius / 4`. -/
def vignetteMask (lib : Lib) (image : Img) (vignette_intensity : ℚ) : Mask :=
  let width := image.width
  let height := image.height
  let radius := vignetteRadius image vignette_intensity
  lib.gaussianBlur
    (lib.drawEllipse (newMask width height 0)
      ((width : ℚ) / 2 - (radius : ℚ), (height : ℚ) / 2 - (radius : ℚ),
       (width : ℚ) / 2 + (radius : ℚ), (height : ℚ) / 2 + (radius : ℚ)) 255)
    ((radius : ℚ) / 4)

/-- `add_vignette` (src/main.py lines 26-47): composite the image against a
black RGB background of the same size, using the blurred circular mask. -/
def add_vignette (lib : Lib) (image : Img) (vignette_intensity : ℚ) : Img :=
  lib.composite image (newRGB image.width image.height ⟨0, 0, 0⟩)
    (vignetteMask lib image vignette_intensity)

/-- The claim's radius: `floor(min(width, height) * vignette_intensity)`. -/
def radiusSpec (image : Img) (vignette_intensity : ℚ) : ℤ :=
  ⌊(min image.width image.height : ℕ) * vignette_intensity⌋

/-- The claim's circle-drawing step: a filled circle of value `v` centered at
`(cx, cy)` with radius `r`, expressed through the library's ellipse
primitive on the circumscribed bounding box. -/
def drawFilledCircle (lib : Lib) (m : Mask) (cx cy r : ℚ) (v : Nat) : Mask :=
  lib.drawEllipse m (cx - r, cy - r, cx + r, cy + r) v

/-- The vignette pipeline exactly as claim C3 words it: radius by `floor`,
a 255-filled circle centered at `(w/2, h/2)` on a zero mask, Gaussian blur
of standard deviation `radius/4`, composite against black. -/
def addVignetteSpec (lib : Lib) (image : Img) (vignette_intensity : ℚ) : Img :=
  let r := radiusSpec image vignette_intensity
  lib.composite image (newRGB image.width image.height ⟨0, 0, 0⟩)
    (lib.gaussianBlur
      (drawFilledCircle lib (newMask image.width image.height 0)
        ((image.width : ℚ) / 2) ((image.height : ℚ) / 2) (r : ℚ) 255)
      ((r : ℚ) / 4))

/-! ## The batch driver -/

/-- Observable console/file events of a run, in order. -/
inductive Event where
  /-- `Processed and saved: {output_path}` together with the write itself. -/
  | saved (p : FsPath)
  /-- `Failed to process: {image_path}` (after the error log inside
  `process_image`). -/
  | failed (p : FsPath)
  /-- `Invalid input. Please enter numeric values.` -/
  | invalidNum
  /-- `Enter saturation factor (e.g. 1.3): ` -/
  | promptSat
  /-- `Enter contrast factor (e.g. 1.1): ` -/
  | promptCon
  /-- `Enter vignette intensity (e.g. 0.8): ` -/
  | promptVig
  /-- `Do you want to save the enhanced image {filename}? (y/n): ` -/
  | promptConfirm (filename : PyStr)
  /-- The side-by-side preview window (`show_comparison`). -/
  | shown
  /-- `Let's try again.` -/
  | tryAgain
  /-- `Invalid input. Let's try again.` -/
  | invalidConfirm
deriving DecidableEq, Repr

/-- An uncaught Python exception escaping the batch driver. -/
inductive PyExc where
  /-- `Image.save` raised at src/main.py line 102 (outside any try/except). -/
  | saveError (p : FsPath)
deriving DecidableEq, Repr

/-- `process_image` (src/main.py lines 49-69): open, enhance, vignette, with
every exception caught and turned into `None`.  In the model the transforms
are total, so only decoding can fail. -/
def process_image (lib : Lib) (image_path : FsPath)
    (saturation_factor contrast_factor vignette_intensity : ℚ) : Option Img :=
  match lib.decode image_path with
  | some image =>
    some (add_vignette lib (enhance_image image saturation_factor contrast_factor)
      vignette_intensity)
  | none => none

/-- `process_images_in_directory` (src/main.py lines 85-105).  `listing` is
the `os.listdir` snapshot.  The save at line 102 is outside every
try/except, so a save failure is an uncaught exception aborting the scan
(`Except.error`); decode/transform failures only log and continue. -/
def process_images_in_directory (lib : Lib) (directory : PyStr) (listing : List PyStr)
    (saturation_factor contrast_factor vignette_intensity : ℚ) :
    Except PyExc (List Event) :=
  match listing with
  | [] => .ok []
  | filename :: rest =>
    if isSupported filename then
      match process_image lib ⟨directory, filename⟩ saturation_factor contrast_factor
          vignette_intensity with
      | some enhanced_img =>
        if lib.saveOk ⟨directory, outputName filename⟩ enhanced_img then
          (process_images_in_directory lib directory rest saturation_factor
            contrast_factor vignette_intensity).map
            (fun evs => .saved ⟨directory, outputName filename⟩ :: evs)
        else .error (.saveError ⟨directory, outputName filename⟩)
      | none =>
        (process_images_in_directory lib directory rest saturation_factor
          contrast_factor vignette_intensity).map
          (fun evs => .failed ⟨directory, filename⟩ :: evs)
    else
      process_images_in_directory lib directory rest saturation_factor
        contrast_factor vignette_intensity

/-- The event trace of a batch run in which every save succeeds. -/
def batchEvents (lib : Lib) (directory : PyStr) (listing : List PyStr)
    (s c v : ℚ) : List Event :=
  match listing with
  | [] => []
  | filename :: rest =>
    if isSupported filename then
      match process_image lib ⟨directory, filename⟩ s c v with
      | some _ => .saved ⟨directory, outputName filename⟩ :: batchEvents lib directory rest s c v
      | none => .failed ⟨directory, filename⟩ :: batchEvents lib directory rest s c v
    else batchEvents lib directory rest s c v

/-- The paths written by the run, extracted from its event trace. -/
def savedPaths (evs : List Event) : List FsPath :=
  evs.filterMap (fun e => match e with | .saved p => some p | _ => none)

/-! ## The interactive one-by-one session

`process_images_one_by_one` (src/main.py lines 107-145) is an interactive
loop that need not terminate (the user can keep answering), so it is
embedded as a step machine: one `oneByOneStep` performs one visit to the
top of the `for`/`while` structure.  `Image.open` is called once per file at
line 117 and again inside `process_image` at line 128; the filesystem is
external mutable state, so the successive results of `Image.open` are an
oracle `openRes : ℕ → Option Img` indexed by the number of open calls made
so far (`none` models a raised decode error). -/

/-- Where control currently stands in `process_images_one_by_one`. -/
inductive OBOPhase where
  /-- At the top of the `for filename in os.listdir(...)` loop (line 114). -/
  | scanning
  /-- Inside the `while True` loop for `fname`, about to prompt for the three
  numeric parameters (line 121); `orig` is the image opened at line 117. -/
  | atParams (fname : PyStr) (orig : Img)
  /-- About to ask `Do you want to save ...? (y/n)` (line 132) for the
  enhanced image `enh`. -/
  | atConfirm (fname : PyStr) (orig : Img) (enh : Img)
  /-- An uncaught exception terminated the program (the `Image.open` at
  line 117, an `EOFError` from `input()`, and the `save` at line 136 are all
  outside every try/except). -/
  | crashed
deriving DecidableEq

/-- Machine state: current control point, the directory entries not yet
visited, and how many `Image.open` calls have been made. -/
structure OBOSt where
  phase : OBOPhase
  queue : List PyStr
  opens : Nat
deriving DecidableEq

/-- Result of one step: new state, remaining console input, emitted events. -/
structure OBORes where
  st : OBOSt
  inputs : List PyStr
  events : List Event
deriving DecidableEq

/-- One step of `process_images_one_by_one` (src/main.py lines 107-145).

* `scanning`: take the next directory entry; skip it unless its extension is
  supported (line 115), otherwise `Image.open` it (line 117 — a failure here
  is an uncaught exception).
* `atParams`: read the three factors with `float(input(...))` (lines
  121-123); a `ValueError` prints the invalid-input message and restarts the
  `while` loop (lines 124-126); then `process_image` re-opens and processes
  the file (line 128): on success show the preview and fall through to the
  confirm prompt, on failure print `Failed to process` and `break` to the
  next file (lines 143-145).
* `atConfirm`: read the answer, `.strip().lower()` it (line 132): `'y'`
  saves (uncaught on failure) and `break`s to the next file (lines 133-138),
  `'n'` and every other answer print their message and restart the `while`
  loop, re-prompting the parameters (lines 139-142).
* Exhausted console input raises `EOFError` in `input()`, uncaught. -/
def oneByOneStep (lib : Lib) (openRes : Nat → Option Img) (directory : PyStr)
    (st : OBOSt) (inputs : List PyStr) : OBORes :=
  match st.phase with
  | .crashed => ⟨st, inputs, []⟩
  | .scanning =>
    match st.queue with
    | [] => ⟨st, inputs, []⟩
    | f :: rest =>
      if isSupported f then
        match openRes st.opens with
        | some image => ⟨⟨.atParams f image, rest, st.opens + 1⟩, inputs, []⟩
        | none => ⟨⟨.crashed, rest, st.opens + 1⟩, inputs, []⟩
      else ⟨⟨.scanning, rest, st.opens⟩, inputs, []⟩
  | .atParams f orig =>
    match inputs with
    | [] => ⟨⟨.crashed, st.queue, st.opens⟩, [], [.promptSat]⟩
    | i1 :: r1 =>
      match floatOfStr i1 with
      | none => ⟨st, r1, [.promptSat, .invalidNum]⟩
      | some s =>
        match r1 with
        | [] => ⟨⟨.crashed, st.queue, st.opens⟩, [], [.promptSat, .promptCon]⟩
        | i2 :: r2 =>
          match floatOfStr i2 with
          | none => ⟨st, r2, [.promptSat, .promptCon, .invalidNum]⟩
          | some c =>
            match r2 with
            | [] =>
              ⟨⟨.crashed, st.queue, st.opens⟩, [], [.promptSat, .promptCon, .promptVig]⟩
            | i3 :: r3 =>
              match floatOfStr i3 with
              | none => ⟨st, r3, [.promptSat, .promptCon, .promptVig, .invalidNum]⟩
              | some v =>
                match openRes st.opens with
                | some image2 =>
                  ⟨⟨.atConfirm f orig
                      (add_vignette lib (enhance_image image2 s c) v),
                    st.queue, st.opens + 1⟩, r3,
                    [.promptSat, .promptCon, .promptVig, .shown]⟩
                | none =>
                  ⟨⟨.scanning, st.queue, st.opens + 1⟩, r3,
                    [.promptSat, .promptCon, .promptVig, .failed ⟨directory, f⟩]⟩
  | .atConfirm f orig enh =>
    match inputs with
    | [] => ⟨⟨.crashed, st.queue, st.opens⟩, [], [.promptConfirm f]⟩
    | a :: rest =>
      if pyLower (pyStrip a) = pystr "y" then
        if lib.saveOk ⟨directory, outputName f⟩ enh then
          ⟨⟨.scanning, st.queue, st.opens⟩, rest,
            [.promptConfirm f, .saved ⟨directory, outputName f⟩]⟩
        else ⟨⟨.crashed, st.queue, st.opens⟩, rest, [.promptConfirm f]⟩
      else if pyLower (pyStrip a) = pystr "n" then
        ⟨⟨.atParams f orig, st.queue, st.opens⟩, rest, [.promptConfirm f, .tryAgain]⟩
      else
        ⟨⟨.atParams f orig, st.queue, st.opens⟩, rest,
          [.promptConfirm f, .invalidConfirm]⟩

/-! ## The entry point -/

/-- Outcome of the prompt phase reading the three factors in `main`
(src/main.py lines 155-161). -/
inductive Read3 where
  /-- `input()` hit end of input: uncaught `EOFError`. -/
  | eof
  /-- Some line failed to parse as a float: the `except ValueError` branch. -/
  | bad (rest : List PyStr)
  /-- All three factors parsed. -/
  | ok (s c v : ℚ) (rest : List PyStr)
deriving DecidableEq

/-- Read the saturation, contrast and vignette factors, stopping at the
first `ValueError` (later prompts are then never shown). -/
def read3 (inputs : List PyStr) : Read3 :=
  match inputs with
  | [] => .eof
  | i1 :: r1 =>
    match floatOfStr i1 with
    | none => .bad r1
    | some s =>
      match r1 with
      | [] => .eof
      | i2 :: r2 =>
        match floatOfStr i2 with
        | none => .bad r2
        | some c =>
          match r2 with
          | [] => .eof
          | i3 :: r3 =>
            match floatOfStr i3 with
            | none => .bad r3
            | some v => .ok s c v r3

/-- What `main` does after its mode prompt. -/
inductive MainRes where
  /-- `input()` raised `EOFError`, uncaught. -/
  | crashedEOF
  /-- Batch mode chosen but a factor failed to parse: message printed and
  `return` (src/main.py lines 159-161) — nothing is processed. -/
  | invalidAbort
  /-- Batch mode ran `process_images_in_directory` with this result. -/
  | batchRun (r : Except PyExc (List Event))
  /-- One-by-one mode: the interactive machine starts in this state with
  this remaining console input. -/
  | oneByOne (st : OBOSt) (rest : List PyStr)

/-- Did `main` take the batch-all branch (the `if apply_to_all == 'y'` arm,
src/main.py line 154)? -/
def MainRes.isBatchPath : MainRes → Bool
  | .crashedEOF => true
  | .invalidAbort => true
  | .batchRun _ => true
  | .oneByOne _ _ => false

/-- `main` (src/main.py lines 147-165): ask `Apply effects to all images?`,
strip/lower the answer; on exactly `'y'` prompt for the three factors and
run the batch driver (aborting on unparseable input), otherwise hand over
to the one-by-one machine.  `listing` stands for the entries of
`os.getcwd()`. -/
def main' (lib : Lib) (directory : PyStr) (listing : List PyStr)
    (inputs : List PyStr) : MainRes :=
  match inputs with
  | [] => .crashedEOF
  | a :: rest =>
    if pyLower (pyStrip a) = pystr "y" then
      match read3 rest with
      | .eof => .crashedEOF
      | .bad _ => .invalidAbort
      | .ok s c v _ => .batchRun (process_images_in_directory lib directory listing s c v)
    else .oneByOne ⟨.scanning, listing, 0⟩ rest

/-! ## Concrete instances used by witnesses and counterexamples -/

/-- An imaging library instance with prescribed decode/save behavior and
trivial (size-preserving) pixel primitives; it satisfies all the interface
laws, so theorems quantified over `Lib` apply to it. -/
def constLib (dec : FsPath → Option Img) (sv : FsPath → Img → Bool) : Lib where
  decode := dec
  saveOk := sv
  drawEllipse := fun m _ _ => m
  gaussianBlur := fun m _ => m
  composite := fun _ i2 _ => i2
  drawEllipse_width := fun _ _ _ => rfl
  drawEllipse_height := fun _ _ _ => rfl
  gaussianBlur_width := fun _ _ => rfl
  gaussianBlur_height := fun _ _ => rfl
  composite_width := fun _ _ _ => rfl
  composite_height := fun _ _ _ => rfl
  composite_mode := fun _ _ _ => rfl

/-- A tiny 2×1 RGB image. -/
def imgA : Img := ⟨2, 1, pystr "RGB", [⟨10, 20, 30⟩, ⟨255, 0, 128⟩]⟩

/-- A 3×3 black RGB image. -/
def img3 : Img := ⟨3, 3, pystr "RGB", List.replicate 9 ⟨0, 0, 0⟩⟩

/-- A library whose decodes always succeed (yielding `imgA`) and whose
saves always succeed. -/
def trivLib : Lib := constLib (fun _ => some imgA) (fun _ _ => true)

/-! ## Enhancement lemmas -/

/-- Blending with factor 1 returns the second operand unchanged (for byte
values). -/
theorem blendByte_one (a b : Nat) (hb : b ≤ 255) : blendByte a b 1 = b := by
  have h1 : ((a : ℚ) + 1 * ((b : ℚ) - (a : ℚ))) = (b : ℚ) := by ring
  rw [blendByte, h1, Int.floor_natCast, clampByte]
  omega

/-- Pixel blend with factor 1 is the identity on byte-valued pixels. -/
theorem blendPx_one (a p : RGBPx) (h : p.r ≤ 255 ∧ p.g ≤ 255 ∧ p.b ≤ 255) :
    blendPx a p 1 = p := by
  obtain ⟨h1, h2, h3⟩ := h
  cases p
  simp only [blendPx, RGBPx.mk.injEq]
  exact ⟨blendByte_one _ _ h1, blendByte_one _ _ h2, blendByte_one _ _ h3⟩

/-- Saturation scaling with factor 1 is the identity. -/
theorem colorEnhance_one (img : Img) (h : img.Valid) : colorEnhance img 1 = img := by
  have hmap : img.px.map (fun p => blendPx (grayPx p) p 1) = img.px.map id :=
    List.map_congr_left (fun p hp => blendPx_one _ p (h p hp))
  cases img
  simp only [colorEnhance] at hmap ⊢
  rw [hmap, List.map_id]

/-- Contrast scaling with factor 1 is the identity. -/
theorem contrastEnhance_one (img : Img) (h : img.Valid) : contrastEnhance img 1 = img := by
  have hmap : img.px.map
      (fun p => blendPx ⟨contrastMeanByte img, contrastMeanByte img, contrastMeanByte img⟩ p 1)
      = img.px.map id :=
    List.map_congr_left (fun p hp => blendPx_one _ p (h p hp))
  cases img
  simp only [contrastEnhance] at hmap ⊢
  rw [hmap, List.map_id]

/-- C1: `enhance_image` with `saturation_factor = 1.0` and
`contrast_factor = 1.0` returns an image pixel-identical to its input (for
any image whose channels are genuine byte values). -/
theorem c1_enhance_image_one_one_identity (image : Img) (h : image.Valid) :
    enhance_image image 1 1 = image := by
  rw [enhance_image, colorEnhance_one image h, contrastEnhance_one image h]

/-- Witness for C1 on a concrete image. -/
theorem c1_witness : imgA.Valid ∧ enhance_image imgA 1 1 = imgA :=
  ⟨by decide, c1_enhance_image_one_one_identity imgA (by decide)⟩

/-- C2: for any imaging library satisfying the interface guarantees and any
factors, `enhance_image` preserves width, height and mode; `add_vignette`
preserves width and height and yields an RGB image; and the mask built
inside `add_vignette` has the source image's dimensions. -/
theorem c2_size_and_mode_invariants (lib : Lib) (image : Img) (s c v : ℚ) :
    (enhance_image image s c).width = image.width ∧
    (enhance_image image s c).height = image.height ∧
    (enhance_image image s c).mode = image.mode ∧
    (add_vignette lib image v).width = image.width ∧
    (add_vignette lib image v).height = image.height ∧
    (add_vignette lib image v).mode = pystr "RGB" ∧
    (vignetteMask lib image v).width = image.width ∧
    (vignetteMask lib image v).height = image.height := by
  refine ⟨rfl, rfl, rfl, ?_, ?_, ?_, ?_, ?_⟩
  · rw [add_vignette, lib.composite_width]; rfl
  · rw [add_vignette, lib.composite_height]; rfl
  · rw [add_vignette, lib.composite_mode]; rfl
  · rw [vignetteMask, lib.gaussianBlur_width, lib.drawEllipse_width]; rfl
  · rw [vignetteMask, lib.gaussianBlur_height, lib.drawEllipse_height]; rfl

/-- Python `int()` agrees with `floor` on nonnegative values. -/
theorem pyTrunc_eq_floor (q : ℚ) (h : 0 ≤ q) : pyTrunc q = ⌊q⌋ := by
  rw [pyTrunc, if_pos h]

/-- C3 counterexample: at a 3×3 image and `vignette_intensity = -1/2` the
radius the code computes (`int`, truncation toward zero: `-1`) differs from
the claimed `floor(min(w, h) * vignette_intensity)` (`-2`). -/
theorem c3_counterexample : vignetteRadius img3 (-1/2) ≠ radiusSpec img3 (-1/2) := by
  have hmin : ((min img3.width img3.height : ℕ) : ℚ) = 3 := by norm_num [img3]
  have h1 : vignetteRadius img3 (-1/2) = -1 := by
    rw [vignetteRadius, hmin, pyTrunc, if_neg (by norm_num)]
    norm_num [Int.ceil_eq_iff]
  have h2 : radiusSpec img3 (-1/2) = -2 := by
    rw [radiusSpec, hmin]
    norm_num [Int.floor_eq_iff]
  omega

/-- C3 (amended to nonnegative intensity, where `int` is `floor`): the
radius is `floor(min(w, h) * vignette_intensity)`, and `add_vignette` is
exactly the claimed pipeline: 255-filled circle centered at `(w/2, h/2)`
with that radius on a zero-initialized mask of the image's size, Gaussian
blur of standard deviation `radius/4`, composite against black. -/
theorem c3_vignette_pipeline (lib : Lib) (image : Img) (vi : ℚ) (h : 0 ≤ vi) :
    vignetteRadius image vi = radiusSpec image vi ∧
    add_vignette lib image vi = addVignetteSpec lib image vi := by
  have hq : (0 : ℚ) ≤ ((min image.width image.height : ℕ) : ℚ) * vi :=
    mul_nonneg (by positivity) h
  have hr : vignetteRadius image vi = radiusSpec image vi := by
    rw [vignetteRadius, radiusSpec, pyTrunc_eq_floor _ hq]
  refine ⟨hr, ?_⟩
  simp only [add_vignette, addVignetteSpec, vignetteMask, drawFilledCircle, hr]

/-- Witness for C3 at a nonnegative intensity. -/
theorem c3_witness :
    (0 : ℚ) ≤ 1/2 ∧ add_vignette trivLib img3 (1/2) = addVignetteSpec trivLib img3 (1/2) :=
  ⟨by norm_num, (c3_vignette_pipeline trivLib img3 (1/2) (by norm_num)).2⟩

/-! ## Filename lemmas -/

/-- Lower-casing preserves dot-ness in both directions. -/
theorem lowerCode_eq_dot_iff (c : Nat) : lowerCode c = 46 ↔ c = 46 := by
  unfold lowerCode
  split <;> omega

/-- `breakAtLastDot` returns `none` exactly on dot-free strings. -/
theorem breakAtLastDot_eq_none_iff (s : PyStr) : breakAtLastDot s = none ↔ ¬ 46 ∈ s := by
  induction s with
  | nil => simp [breakAtLastDot]
  | cons c rest ih =>
    rw [breakAtLastDot]
    cases h : breakAtLastDot rest with
    | some pq =>
      obtain ⟨p, q⟩ := pq
      have hmem : 46 ∈ rest := by
        by_contra hn
        rw [ih.mpr hn] at h
        exact Option.noConfusion h
      simp [List.mem_cons, hmem]
    | none =>
      have hr : ¬ 46 ∈ rest := ih.mp h
      by_cases hc : c = 46
      · simp [hc]
      · simp only [hc, if_false, List.mem_cons, not_or, true_iff]
        exact ⟨fun h46 => hc h46.symm, hr⟩

/-- Soundness of `breakAtLastDot`: it exhibits the last dot. -/
theorem breakAtLastDot_eq_some {s p q : PyStr} (h : breakAtLastDot s = some (p, q)) :
    s = p ++ 46 :: q ∧ ¬ 46 ∈ q := by
  induction s generalizing p q with
  | nil => exact Option.noConfusion h
  | cons c rest ih =>
    rw [breakAtLastDot] at h
    cases h2 : breakAtLastDot rest with
    | some pq =>
      obtain ⟨p', q'⟩ := pq
      rw [h2] at h
      obtain ⟨hp, hq⟩ := Prod.mk.injEq .. ▸ Option.some.inj h
      obtain ⟨hs, hnq⟩ := ih h2
      subst hp hq
      exact ⟨by rw [List.cons_append, ← hs], hnq⟩
    | none =>
      rw [h2] at h
      by_cases hc : c = 46
      · rw [if_pos hc] at h
        obtain ⟨hp, hq⟩ := Prod.mk.injEq .. ▸ Option.some.inj h
        subst hp hq hc
        exact ⟨rfl, (breakAtLastDot_eq_none_iff rest).mp h2⟩
      · rw [if_neg hc] at h
        exact Option.noConfusion h

/-- Completeness of `breakAtLastDot` on an exhibited last dot. -/
theorem breakAtLastDot_append (p T : PyStr) (hT : ¬ 46 ∈ T) :
    breakAtLastDot (p ++ 46 :: T) = some (p, T) := by
  induction p with
  | nil =>
    rw [List.nil_append, breakAtLastDot, (breakAtLastDot_eq_none_iff T).mpr hT]
    simp
  | cons c cp ih =>
    rw [List.cons_append, breakAtLastDot, ih]

/-- Name and extension recombine to the filename (so the extension is taken
verbatim from the input, case included). -/
theorem splitext_append (s : PyStr) : (splitext s).1 ++ (splitext s).2 = s := by
  rw [splitext]
  cases h : breakAtLastDot s with
  | none => simp
  | some pq =>
    obtain ⟨p, q⟩ := pq
    obtain ⟨hs, _⟩ := breakAtLastDot_eq_some h
    by_cases hall : p.all (fun c => c = 46)
    · simp [hall]
    · simp only [hall, Bool.false_eq_true, if_false]
      exact hs.symm

/-- The derived output name never equals the source name. -/
theorem outputName_ne (f : PyStr) : outputName f ≠ f := by
  intro h
  have hlen := congrArg List.length h
  have hsplit := congrArg List.length (splitext_append f)
  rw [outputName] at hlen
  simp only [List.length_append] at hlen hsplit
  have h9 : (pystr "_enhanced").length = 9 := by decide
  omega

/-- Every supported extension is a dot followed by a dot-free tail. -/
theorem supported_formats_shape :
    ∀ E ∈ SUPPORTED_FORMATS, E = 46 :: E.tail ∧ ¬ 46 ∈ E.tail := by decide

/-- Reduce `splitext` once its `breakAtLastDot` decomposition is known. -/
theorem splitext_of_break {s p q : PyStr} (h : breakAtLastDot s = some (p, q)) :
    splitext s = if (p.all fun c => c = 46) then (s, []) else (p, 46 :: q) := by
  unfold splitext
  rw [h]

/-- Inserting `_enhanced` before a nonempty extension keeps the filename
supported: the output of a supported file (with nonempty `splitext`
extension) again ends in the same supported extension. -/
theorem isSupported_outputName {f : PyStr} (hs : isSupported f = true)
    (hext : (splitext f).2 ≠ []) : isSupported (outputName f) = true := by
  rw [isSupported, List.any_eq_true] at hs
  obtain ⟨E, hE, hsuf⟩ := hs
  rw [List.isSuffixOf_iff_suffix] at hsuf
  obtain ⟨hshape, hnT⟩ := supported_formats_shape E hE
  rw [hshape] at hsuf
  obtain ⟨pre, hpre⟩ := hsuf
  obtain ⟨x, y, hf, hx, hy⟩ := List.append_eq_map_iff.mp hpre
  cases y with
  | nil => exact absurd hy (by simp)
  | cons d y' =>
    rw [List.map_cons] at hy
    injection hy with hd hy'
    have hd46 : d = 46 := (lowerCode_eq_dot_iff d).mp hd
    subst hd46
    have hny' : ¬ 46 ∈ y' := by
      intro hmem
      apply hnT
      rw [← hy']
      exact List.mem_map.mpr ⟨46, hmem, by decide⟩
    have hbreak : breakAtLastDot f = some (x, y') := by
      rw [hf]
      exact breakAtLastDot_append x y' hny'
    have hsp := splitext_of_break hbreak
    have hsplit : splitext f = (x, 46 :: y') := by
      by_cases hall : x.all (fun c => c = 46)
      · exfalso
        apply hext
        rw [hsp, if_pos hall]
      · rw [hsp, if_neg hall]
    rw [isSupported, List.any_eq_true]
    refine ⟨E, hE, ?_⟩
    rw [List.isSuffixOf_iff_suffix, hshape, outputName, hsplit]
    show 46 :: E.tail <:+ pyLower (x ++ pystr "_enhanced" ++ 46 :: y')
    rw [pyLower, List.map_append, List.map_append, List.map_cons]
    have hdot : lowerCode 46 = 46 := by decide
    rw [hdot, hy']
    exact List.suffix_append _ _

/-! ## Batch run lemmas -/

/-- When every save succeeds, the batch driver completes normally with the
trace `batchEvents` (no exception escapes). -/
theorem process_images_ok (lib : Lib) (d : PyStr) (listing : List PyStr) (s c v : ℚ)
    (hsave : ∀ p i, lib.saveOk p i = true) :
    process_images_in_directory lib d listing s c v = .ok (batchEvents lib d listing s c v) := by
  induction listing with
  | nil => rfl
  | cons f rest ih =>
    rw [process_images_in_directory, batchEvents]
    by_cases hs : isSupported f
    · rw [if_pos hs, if_pos hs]
      cases hp : process_image lib ⟨d, f⟩ s c v with
      | some img => simp only [hsave _ img, if_true, ih, Except.map]
      | none => simp only [ih, Except.map]
    · rw [if_neg hs, if_neg hs, ih]

/-- The saved paths of a completed batch run are exactly the derived names
of the supported files whose decode succeeded, in listing order. -/
theorem savedPaths_batchEvents (lib : Lib) (d : PyStr) (listing : List PyStr) (s c v : ℚ) :
    savedPaths (batchEvents lib d listing s c v) =
      (listing.filter (fun f => isSupported f && (lib.decode ⟨d, f⟩).isSome)).map
        (fun f => (⟨d, outputName f⟩ : FsPath)) := by
  induction listing with
  | nil => rfl
  | cons f rest ih =>
    rw [batchEvents, List.filter]
    by_cases hs : isSupported f
    · rw [if_pos hs]
      cases hd : lib.decode ⟨d, f⟩ with
      | some img =>
        rw [process_image, hd]
        simp only [hs, Option.isSome_some, Bool.and_self, List.map_cons]
        rw [savedPaths, List.filterMap_cons] at *
        simpa [savedPaths] using ih
      | none =>
        rw [process_image, hd]
        simp only [hs, Option.isSome_none, Bool.and_false, Bool.true_and]
        rw [savedPaths, List.filterMap_cons]
        exact ih
    · rw [if_neg hs]
      simp only [Bool.not_eq_true] at hs
      simp only [hs, Bool.false_and]
      exact ih

/-- A supported file whose decode fails contributes a `Failed to process`
message to the trace (and the run continues past it). -/
theorem failed_mem_batchEvents (lib : Lib) (d : PyStr) (listing : List PyStr) (s c v : ℚ)
    {f : PyStr} (hf : f ∈ listing) (hs : isSupported f = true)
    (hd : lib.decode ⟨d, f⟩ = none) :
    Event.failed ⟨d, f⟩ ∈ batchEvents lib d listing s c v := by
  induction listing with
  | nil => exact absurd hf (List.not_mem_nil f)
  | cons a rest ih =>
    rw [batchEvents]
    rcases List.mem_cons.mp hf with rfl | hmem
    · rw [if_pos hs, process_image, hd]
      exact List.mem_cons_self _ _
    · by_cases ha : isSupported a
      · rw [if_pos ha]
        cases hp : process_image lib ⟨d, a⟩ s c v with
        | some img => exact List.mem_cons_of_mem _ (ih hmem)
        | none => exact List.mem_cons_of_mem _ (ih hmem)
      · rw [if_neg ha]
        exact ih hmem

/-- A supported file whose decode succeeds contributes a save of its derived
output name to the trace. -/
theorem saved_mem_batchEvents (lib : Lib) (d : PyStr) (listing : List PyStr) (s c v : ℚ)
    {f : PyStr} (hf : f ∈ listing) (hs : isSupported f = true)
    (hd : (lib.decode ⟨d, f⟩).isSome) :
    Event.saved ⟨d, outputName f⟩ ∈ batchEvents lib d listing s c v := by
  induction listing with
  | nil => exact absurd hf (List.not_mem_nil f)
  | cons a rest ih =>
    rw [batchEvents]
    rcases List.mem_cons.mp hf with rfl | hmem
    · obtain ⟨img, himg⟩ := Option.isSome_iff_exists.mp hd
      rw [if_pos hs, process_image, himg]
      exact List.mem_cons_self _ _
    · by_cases ha : isSupported a
      · rw [if_pos ha]
        cases hp : process_image lib ⟨d, a⟩ s c v with
        | some img => exact List.mem_cons_of_mem _ (ih hmem)
        | none => exact List.mem_cons_of_mem _ (ih hmem)
      · rw [if_neg ha]
        exact ih hmem

/-- Every path saved by a completed batch run is the derived output name of
some listed file, placed in the scanned directory. -/
theorem savedPaths_of_ok (lib : Lib) (d : PyStr) (s c v : ℚ) (listing : List PyStr)
    (evs : List Event)
    (h : process_images_in_directory lib d listing s c v = .ok evs) :
    ∀ p ∈ savedPaths evs, ∃ g ∈ listing, p = ⟨d, outputName g⟩ := by
  induction listing generalizing evs with
  | nil =>
    rw [process_images_in_directory] at h
    cases h
    intro p hp
    exact absurd hp (List.not_mem_nil p)
  | cons f rest ih =>
    rw [process_images_in_directory] at h
    split at h
    · -- supported file
      split at h
      · -- process_image succeeded
        split at h
        · -- save succeeded
          cases hrec : process_images_in_directory lib d rest s c v with
          | error e => rw [hrec, Except.map] at h; exact Except.noConfusion h
          | ok evs' =>
            rw [hrec, Except.map] at h
            cases h
            intro p hp2
            rw [savedPaths, List.filterMap_cons] at hp2
            rcases List.mem_cons.mp hp2 with rfl | hmem
            · exact ⟨f, List.mem_cons_self _ _, rfl⟩
            · obtain ⟨g, hg, hgp⟩ := ih evs' hrec p hmem
              exact ⟨g, List.mem_cons_of_mem _ hg, hgp⟩
        · -- save raised: no .ok result
          exact Except.noConfusion h
      · -- process_image failed: a log event, recurse
        cases hrec : process_images_in_directory lib d rest s c v with
        | error e => rw [hrec, Except.map] at h; exact Except.noConfusion h
        | ok evs' =>
          rw [hrec, Except.map] at h
          cases h
          intro p hp2
          rw [savedPaths, List.filterMap_cons] at hp2
          obtain ⟨g, hg, hgp⟩ := ih evs' hrec p hp2
          exact ⟨g, List.mem_cons_of_mem _ hg, hgp⟩
    · -- unsupported file skipped
      intro p hp2
      obtain ⟨g, hg, hgp⟩ := ih evs h p hp2
      exact ⟨g, List.mem_cons_of_mem _ hg, hgp⟩

/-! ## Claims about the batch driver -/

/-- The tuple-`endswith` filter coincides with its spelled-out disjunction. -/
theorem isSupported_iff_spec (f : PyStr) : isSupported f = true ↔ isSupportedSpec f := by
  simp only [isSupported, SUPPORTED_FORMATS, List.any_eq_true, List.isSuffixOf_iff_suffix,
    isSupportedSpec, List.mem_cons, List.not_mem_nil, or_false]
  constructor
  · rintro ⟨e, rfl | rfl | rfl | rfl | h, hs⟩ <;> tauto
  · rintro (h | h | h | h)
    · exact ⟨pystr ".png", by tauto, h⟩
    · exact ⟨pystr ".jpeg", by tauto, h⟩
    · exact ⟨pystr ".jpg", by tauto, h⟩
    · exact ⟨pystr ".bmp", by tauto, h⟩

/-- Filtering by a conjunction yields at most as many elements as filtering
by its first conjunct. -/
theorem length_filter_and_le (l : List PyStr) (p q : PyStr → Bool) :
    (l.filter fun a => p a && q a).length ≤ (l.filter p).length := by
  induction l with
  | nil => simp
  | cons a t ih =>
    simp only [List.filter]
    cases hp : p a <;> cases hq : q a <;> simp only [Bool.and_self, Bool.and_false,
      Bool.false_and, Bool.and_true, Bool.true_and, List.length_cons] <;> omega

/-- C4 counterexample: in a directory holding the supported file `".png"`
(Python's `splitext` gives it an empty extension) and the unsupported file
`".png_enhanced"`, the batch scan overwrites the unsupported file: the run's
single output path is exactly the unsupported file's path, so that file is
neither untouched nor without an output counterpart. -/
theorem c4_counterexample :
    process_images_in_directory trivLib (pystr "d") [pystr ".png", pystr ".png_enhanced"] 1 1 1
      = .ok [.saved ⟨pystr "d", pystr ".png_enhanced"⟩] ∧
    isSupported (pystr ".png_enhanced") = false := by
  exact ⟨rfl, by decide⟩

/-- C4 (amended: in addition to every save succeeding, no supported filename
may have an empty `splitext` extension — leading-dot names such as `".png"`
can overwrite an unsupported neighbour, see the counterexample): a file is
processed iff its lowercased name ends in one of the four supported
extensions; the saved outputs are exactly the derived names of the
successfully decoded supported files (hence at most N outputs); and no
unsupported file's path is ever written. -/
theorem c4_directory_scan (lib : Lib) (d : PyStr) (listing : List PyStr) (s c v : ℚ)
    (hsave : ∀ p i, lib.saveOk p i = true)
    (hext : ∀ f ∈ listing, isSupported f = true → (splitext f).2 ≠ []) :
    (∀ f, isSupported f = true ↔ isSupportedSpec f) ∧
    ∃ evs, process_images_in_directory lib d listing s c v = .ok evs ∧
      savedPaths evs =
        (listing.filter fun f => isSupported f && (lib.decode ⟨d, f⟩).isSome).map
          (fun f => (⟨d, outputName f⟩ : FsPath)) ∧
      (savedPaths evs).length ≤ (listing.filter fun f => isSupported f).length ∧
      ∀ g ∈ listing, isSupported g = false → (⟨d, g⟩ : FsPath) ∉ savedPaths evs := by
  refine ⟨isSupported_iff_spec, batchEvents lib d listing s c v,
    process_images_ok lib d listing s c v hsave,
    savedPaths_batchEvents lib d listing s c v, ?_, ?_⟩
  · rw [savedPaths_batchEvents, List.length_map]
    exact length_filter_and_le listing _ _
  · intro g hg hgns hmem
    rw [savedPaths_batchEvents] at hmem
    obtain ⟨f, hf, hpf⟩ := List.mem_map.mp hmem
    obtain ⟨hfmem, hfprop⟩ := List.mem_filter.mp hf
    have hfsup : isSupported f = true := (Bool.and_eq_true _ _).mp hfprop |>.1
    have hout : outputName f = g := (FsPath.mk.injEq _ _ _ _ ▸ hpf).2
    have hsup' := isSupported_outputName hfsup (hext f hfmem hfsup)
    rw [hout, hgns] at hsup'
    exact Bool.noConfusion hsup'

/-- Witness for C4 on a concrete directory: `a.jpg` and `B.PNG` are
processed (the latter case-insensitively), `b.txt` is not; one output per
decoded supported file. -/
theorem c4_witness :
    ∃ evs, process_images_in_directory trivLib (pystr "d")
        [pystr "a.jpg", pystr "b.txt", pystr "B.PNG"] 1 1 1 = .ok evs ∧
      savedPaths evs =
        ([pystr "a.jpg", pystr "b.txt", pystr "B.PNG"].filter
          fun f => isSupported f && ((trivLib.decode ⟨pystr "d", f⟩).isSome)).map
          (fun f => (⟨pystr "d", outputName f⟩ : FsPath)) ∧
      (savedPaths evs).length ≤
        ([pystr "a.jpg", pystr "b.txt", pystr "B.PNG"].filter fun f => isSupported f).length ∧
      ∀ g ∈ [pystr "a.jpg", pystr "b.txt", pystr "B.PNG"], isSupported g = false →
        (⟨pystr "d", g⟩ : FsPath) ∉ savedPaths evs :=
  (c4_directory_scan trivLib (pystr "d") [pystr "a.jpg", pystr "b.txt", pystr "B.PNG"] 1 1 1
    (fun _ _ => rfl) (by decide)).2

/-- C5 counterexample: with an imaging library whose saves raise (for
example, an unwritable directory), the batch driver aborts with an uncaught
exception at the first supported file — the second file is never reached
and the process does not exit cleanly, because the `save` at line 102 sits
outside the `try`/`except` of `process_image`. -/
theorem c5_counterexample :
    process_images_in_directory (constLib (fun _ => some imgA) (fun _ _ => false))
        (pystr "d") [pystr "a.jpg", pystr "b.jpg"] 1 1 1
      = .error (.saveError ⟨pystr "d", pystr "a_enhanced.jpg"⟩) := rfl

/-- C5 (amended: decode and transform failures are caught per file, logged,
and the scan continues to completion; but a failure while saving is NOT
caught — it propagates and aborts the run, see the counterexample): when
every save succeeds, the scan finishes normally, every supported file whose
decode fails contributes a logged failure message, and every supported file
whose decode succeeds is still saved — one file's failure never stops the
batch. -/
theorem c5_failures_caught (lib : Lib) (d : PyStr) (listing : List PyStr) (s c v : ℚ)
    (hsave : ∀ p i, lib.saveOk p i = true) :
    ∃ evs, process_images_in_directory lib d listing s c v = .ok evs ∧
      (∀ f ∈ listing, isSupported f = true → lib.decode ⟨d, f⟩ = none →
        Event.failed ⟨d, f⟩ ∈ evs) ∧
      (∀ f ∈ listing, isSupported f = true → (lib.decode ⟨d, f⟩).isSome →
        Event.saved ⟨d, outputName f⟩ ∈ evs) :=
  ⟨batchEvents lib d listing s c v, process_images_ok lib d listing s c v hsave,
   fun _ hf hs hd => failed_mem_batchEvents lib d listing s c v hf hs hd,
   fun _ hf hs hd => saved_mem_batchEvents lib d listing s c v hf hs hd⟩

/-- Witness for C5: a directory where `bad.jpg` fails to decode and
`good.jpg` decodes; the run completes, logs the failure, and still saves
the good file. -/
theorem c5_witness :
    ∃ evs, process_images_in_directory
        (constLib (fun p => if p.file = pystr "bad.jpg" then none else some imgA)
          (fun _ _ => true))
        (pystr "d") [pystr "bad.jpg", pystr "good.jpg"] 1 1 1 = .ok evs ∧
      Event.failed ⟨pystr "d", pystr "bad.jpg"⟩ ∈ evs ∧
      Event.saved ⟨pystr "d", outputName (pystr "good.jpg")⟩ ∈ evs := by
  obtain ⟨evs, hok, hfail, hsv⟩ := c5_failures_caught
    (constLib (fun p => if p.file = pystr "bad.jpg" then none else some imgA)
      (fun _ _ => true))
    (pystr "d") [pystr "bad.jpg", pystr "good.jpg"] 1 1 1 (fun _ _ => rfl)
  exact ⟨evs, hok, hfail _ (by decide) (by decide) (by decide),
    hsv _ (by decide) (by decide) (by decide)⟩

/-- C6: the output filename is the input's `splitext` name with `_enhanced`
inserted before the (verbatim, case-preserved) extension, `photo.jpg`
becomes `photo_enhanced.jpg`, and every path a completed batch run writes
lies in the scanned directory under such a derived name, which never equals
the source filename. -/
theorem c6_output_filename :
    (∀ f : PyStr,
      (splitext f).1 ++ (splitext f).2 = f ∧
      outputName f = (splitext f).1 ++ pystr "_enhanced" ++ (splitext f).2 ∧
      outputName f ≠ f) ∧
    outputName (pystr "photo.jpg") = pystr "photo_enhanced.jpg" ∧
    (∀ (lib : Lib) (d : PyStr) (listing : List PyStr) (s c v : ℚ) (evs : List Event),
      process_images_in_directory lib d listing s c v = .ok evs →
      ∀ p ∈ savedPaths evs, p.dir = d ∧ ∃ g ∈ listing, p.file = outputName g ∧ p.file ≠ g) := by
  refine ⟨fun f => ⟨splitext_append f, rfl, outputName_ne f⟩, by decide, ?_⟩
  intro lib d listing s c v evs hok p hp
  obtain ⟨g, hg, hpg⟩ := savedPaths_of_ok lib d s c v listing evs hok p hp
  rw [hpg]
  exact ⟨rfl, g, hg, rfl, outputName_ne g⟩

/-- Witness for C6 at a concrete filename. -/
theorem c6_witness :
    outputName (pystr "photo.jpg") = pystr "photo_enhanced.jpg" ∧
    outputName (pystr "photo.jpg") ≠ pystr "photo.jpg" :=
  ⟨c6_output_filename.2.1, (c6_output_filename.1 (pystr "photo.jpg")).2.2⟩

/-! ## Claims about the interactive session and the entry point -/

/-- C7 counterexample: after the preview, an answer other than `y`/`n`
(here `"x"`) does NOT re-prompt only the y/n question: control returns to
the parameter phase (the `while True` top), whose next step prompts for the
saturation factor again. -/
theorem c7_counterexample :
    (oneByOneStep trivLib (fun _ => some imgA) (pystr "d")
        ⟨.atConfirm (pystr "a.jpg") imgA imgA, [], 0⟩ [pystr "x"]).st.phase
      = .atParams (pystr "a.jpg") imgA ∧
    .promptSat ∈ (oneByOneStep trivLib (fun _ => some imgA) (pystr "d")
        ⟨.atParams (pystr "a.jpg") imgA, [], 0⟩ []).events := by
  exact ⟨rfl, by decide⟩


/-- C7 (amended: `'y'` saves the enhanced image and advances to the next
file; `'n'` re-loops with fresh parameter prompts for the same file; any
OTHER answer also re-loops with fresh parameter prompts, exactly like `'n'`
apart from the message printed — the y/n question is never re-asked on its
own, contrary to the claim, see the counterexample). -/
theorem c7_confirm_prompt (lib : Lib) (openRes : Nat → Option Img) (d f : PyStr)
    (orig enh : Img) (q : List PyStr) (oc : Nat) (a : PyStr) (rest : List PyStr) :
    (pyLower (pyStrip a) = pystr "y" → lib.saveOk ⟨d, outputName f⟩ enh = true →
      oneByOneStep lib openRes d ⟨.atConfirm f orig enh, q, oc⟩ (a :: rest) =
        ⟨⟨.scanning, q, oc⟩, rest, [.promptConfirm f, .saved ⟨d, outputName f⟩]⟩) ∧
    (pyLower (pyStrip a) = pystr "n" →
      oneByOneStep lib openRes d ⟨.atConfirm f orig enh, q, oc⟩ (a :: rest) =
        ⟨⟨.atParams f orig, q, oc⟩, rest, [.promptConfirm f, .tryAgain]⟩) ∧
    (pyLower (pyStrip a) ≠ pystr "y" → pyLower (pyStrip a) ≠ pystr "n" →
      oneByOneStep lib openRes d ⟨.atConfirm f orig enh, q, oc⟩ (a :: rest) =
        ⟨⟨.atParams f orig, q, oc⟩, rest, [.promptConfirm f, .invalidConfirm]⟩) := by
  refine ⟨fun hy hsv => ?_, fun hn => ?_, fun hy hn => ?_⟩
  · simp only [oneByOneStep, hy, hsv, if_true, if_pos rfl]
  · simp only [oneByOneStep, hn]
    rw [if_neg (by decide), if_pos trivial]
  · simp only [oneByOneStep, if_neg hy, if_neg hn]

/-- Witness for C7: answering `y` with a succeeding save writes the derived
output and returns to the scan (next file). -/
theorem c7_witness :
    oneByOneStep trivLib (fun _ => some imgA) (pystr "d")
        ⟨.atConfirm (pystr "a.jpg") imgA imgA, [], 0⟩ [pystr "y"] =
      ⟨⟨.scanning, [], 0⟩, [], [.promptConfirm (pystr "a.jpg"),
        .saved ⟨pystr "d", outputName (pystr "a.jpg")⟩]⟩ :=
  (c7_confirm_prompt trivLib (fun _ => some imgA) (pystr "d") (pystr "a.jpg")
    imgA imgA [] 0 (pystr "y") []).1 (by decide) rfl

/-- C8: non-numeric input for the three factors is asymmetric by mode.  In
batch-all mode any unparseable factor makes `main` print the message and
return before the directory scan (the run aborts, nothing is processed); in
one-by-one mode the same situation only prints the message and re-prompts
the parameters for the current image: state, queue and open count are
unchanged, so there is no retry limit and no advancement. -/
theorem c8_invalid_numeric_input :
    (∀ (lib : Lib) (d : PyStr) (listing : List PyStr) (a : PyStr) (rest : List PyStr),
      pyLower (pyStrip a) = pystr "y" → (∃ r', read3 rest = .bad r') →
      main' lib d listing (a :: rest) = .invalidAbort) ∧
    (∀ (lib : Lib) (openRes : Nat → Option Img) (d : PyStr) (q : List PyStr) (oc : Nat)
      (f : PyStr) (orig : Img) (i1 : PyStr) (r1 : List PyStr),
      floatOfStr i1 = none →
      oneByOneStep lib openRes d ⟨.atParams f orig, q, oc⟩ (i1 :: r1) =
        ⟨⟨.atParams f orig, q, oc⟩, r1, [.promptSat, .invalidNum]⟩) := by
  constructor
  · intro lib d listing a rest hy ⟨r', hbad⟩
    rw [main', if_pos hy, hbad]
  · intro lib openRes d q oc f orig i1 r1 h1
    simp only [oneByOneStep, h1]

/-- Witness for C8 with the unparseable input `"abc"` in both modes. -/
theorem c8_witness :
    main' trivLib (pystr "d") [] (pystr "y" :: [pystr "abc"]) = .invalidAbort ∧
    oneByOneStep trivLib (fun _ => some imgA) (pystr "d")
        ⟨.atParams (pystr "a.jpg") imgA, [], 0⟩ [pystr "abc"] =
      ⟨⟨.atParams (pystr "a.jpg") imgA, [], 0⟩, [], [.promptSat, .invalidNum]⟩ :=
  ⟨c8_invalid_numeric_input.1 trivLib (pystr "d") [] (pystr "y") [pystr "abc"]
      (by decide) ⟨[], by decide⟩,
   c8_invalid_numeric_input.2 trivLib (fun _ => some imgA) (pystr "d") [] 0
      (pystr "a.jpg") imgA (pystr "abc") [] (by decide)⟩

/-- C9 counterexample: the loop CAN leave a file without a successful save.
With a filesystem where the first `Image.open` succeeds and the re-open
inside `process_image` fails (the file changed or vanished between the two
calls), the loop is entered for `a.jpg`, valid parameters are supplied, and
the `break` at line 145 skips to the next file having saved nothing — the
trace holds a `Failed to process` message and no save event. -/
theorem c9_counterexample :
    oneByOneStep trivLib (fun k => if k = 0 then some imgA else none) (pystr "d")
        ⟨.scanning, [pystr "a.jpg"], 0⟩ [pystr "1", pystr "1", pystr "1"]
      = ⟨⟨.atParams (pystr "a.jpg") imgA, [], 1⟩, [pystr "1", pystr "1", pystr "1"], []⟩ ∧
    oneByOneStep trivLib (fun k => if k = 0 then some imgA else none) (pystr "d")
        ⟨.atParams (pystr "a.jpg") imgA, [], 1⟩ [pystr "1", pystr "1", pystr "1"]
      = ⟨⟨.scanning, [], 2⟩, [],
          [.promptSat, .promptCon, .promptVig, .failed ⟨pystr "d", pystr "a.jpg"⟩]⟩ :=
  ⟨rfl, rfl⟩

/-- C9 (amended: once a file's parameter/preview loop has been entered, the
loop advances to the next file only via a successful save — the `'y'`
answer followed by a succeeding write — or via a `process_image` failure,
which logs `Failed to process` and `break`s; every step that returns
control to the directory scan carries one of those two events). -/
theorem c9_advance_only_via_save_or_failure (lib : Lib) (openRes : Nat → Option Img)
    (d : PyStr) (st : OBOSt) (inputs : List PyStr) (f : PyStr) (orig : Img)
    (hphase : st.phase = .atParams f orig ∨ ∃ e, st.phase = .atConfirm f orig e)
    (hscan : (oneByOneStep lib openRes d st inputs).st.phase = .scanning) :
    Event.saved ⟨d, outputName f⟩ ∈ (oneByOneStep lib openRes d st inputs).events ∨
    Event.failed ⟨d, f⟩ ∈ (oneByOneStep lib openRes d st inputs).events := by
  obtain ⟨ph, q, oc⟩ := st
  rcases hphase with h | ⟨e, h⟩
  · have h' : ph = .atParams f orig := h
    subst h'
    cases inputs with
    | nil => simp [oneByOneStep] at hscan
    | cons i1 r1 =>
      cases h1 : floatOfStr i1 with
      | none => simp [oneByOneStep, h1] at hscan
      | some s1 =>
        cases r1 with
        | nil => simp [oneByOneStep, h1] at hscan
        | cons i2 r2 =>
          cases h2 : floatOfStr i2 with
          | none => simp [oneByOneStep, h1, h2] at hscan
          | some s2 =>
            cases r2 with
            | nil => simp [oneByOneStep, h1, h2] at hscan
            | cons i3 r3 =>
              cases h3 : floatOfStr i3 with
              | none => simp [oneByOneStep, h1, h2, h3] at hscan
              | some s3 =>
                cases ho : openRes oc with
                | some img2 => simp [oneByOneStep, h1, h2, h3, ho] at hscan
                | none =>
                  right
                  simp [oneByOneStep, h1, h2, h3, ho]
  · have h' : ph = .atConfirm f orig e := h
    subst h'
    cases inputs with
    | nil => simp [oneByOneStep] at hscan
    | cons a rest =>
      by_cases hy : pyLower (pyStrip a) = pystr "y"
      · by_cases hsv : lib.saveOk ⟨d, outputName f⟩ e = true
        · left
          simp [oneByOneStep, hy, hsv]
        · simp [oneByOneStep, hy, hsv] at hscan
      · by_cases hn : pyLower (pyStrip a) = pystr "n"
        · simp [oneByOneStep, hy, hn,
            show ¬ pystr "n" = pystr "y" from by decide] at hscan
        · simp [oneByOneStep, hy, hn] at hscan

/-- Witness for C9 at a concrete saving step. -/
theorem c9_witness :
    Event.saved ⟨pystr "d", outputName (pystr "a.jpg")⟩ ∈
      (oneByOneStep trivLib (fun _ => some imgA) (pystr "d")
        ⟨.atConfirm (pystr "a.jpg") imgA imgA, [], 0⟩ [pystr "y"]).events ∨
    Event.failed ⟨pystr "d", pystr "a.jpg"⟩ ∈
      (oneByOneStep trivLib (fun _ => some imgA) (pystr "d")
        ⟨.atConfirm (pystr "a.jpg") imgA imgA, [], 0⟩ [pystr "y"]).events :=
  c9_advance_only_via_save_or_failure trivLib (fun _ => some imgA) (pystr "d")
    ⟨.atConfirm (pystr "a.jpg") imgA imgA, [], 0⟩ [pystr "y"] (pystr "a.jpg") imgA
    (Or.inr ⟨imgA, rfl⟩) (by decide)

/-- C10: batch-all mode is selected exactly when the stripped, lowercased
answer to the mode prompt is `'y'`; every other answer (including `'n'`,
empty, or arbitrary text such as `"yes"`) enters the one-by-one machine on
the full listing. -/
theorem c10_mode_selection (lib : Lib) (d : PyStr) (listing : List PyStr)
    (a : PyStr) (rest : List PyStr) :
    ((main' lib d listing (a :: rest)).isBatchPath = true ↔
      pyLower (pyStrip a) = pystr "y") ∧
    (pyLower (pyStrip a) ≠ pystr "y" →
      main' lib d listing (a :: rest) = .oneByOne ⟨.scanning, listing, 0⟩ rest) ∧
    (main' lib d listing (pystr " Y " :: rest)).isBatchPath = true ∧
    (main' lib d listing (pystr "n" :: rest)).isBatchPath = false ∧
    (main' lib d listing (pystr "" :: rest)).isBatchPath = false ∧
    (main' lib d listing (pystr "yes" :: rest)).isBatchPath = false := by
  refine ⟨?_, ?_, ?_, ?_, ?_, ?_⟩
  · by_cases hy : pyLower (pyStrip a) = pystr "y"
    · rw [main', if_pos hy]
      cases read3 rest <;> simp [MainRes.isBatchPath, hy]
    · rw [main', if_neg hy]
      simp [MainRes.isBatchPath, hy]
  · intro hy
    rw [main', if_neg hy]
  · rw [main', if_pos (by decide)]
    cases read3 rest <;> rfl
  · rw [main', if_neg (by decide)]; rfl
  · rw [main', if_neg (by decide)]; rfl
  · rw [main', if_neg (by decide)]; rfl

/-- Witness for C10 at a concrete answer. -/
theorem c10_witness :
    (main' trivLib (pystr "d") [] (pystr "n" :: [])).isBatchPath = false :=
  (c10_mode_selection trivLib (pystr "d") [] (pystr "n") []).2.2.2.1
